import Mathlib

/-!
Verification of the WebProtect survey/load-generation tool and its companion
banking module against their natural-language specification.

The embedding is shallow: Python strings are modelled as lists of character
codepoints (`Str := List Nat`), Python `float` quantities as rationals,
the in-memory account dictionary as a function from user ids to optional
accounts, and the persisted blocklist file as the list of its lines.
External collaborators (the HTTP fetcher, the HTML extractor `BeautifulSoup`,
the OCR engine, `urllib.parse`) are modelled as abstract inputs: a fetch
outcome carries the observed content type, the extracted text blocks, the
outbound links and the OCR texts that the image loop processed.  The
timestamp prefix that `log_message` prepends comes from the wall clock and is
not modelled; a log line is modelled by its message.
-/

/-- A Python string, as the list of its character codepoints. -/
abbrev Str := List Nat

/-- Convenience for writing string literals of the embedding. -/
def str (s : String) : Str := s.data.map Char.toNat

/-- Codepoints that Python's regex `\w` class matches (ASCII fragment):
letters, digits and underscore. -/
def isWordChar (c : Nat) : Bool :=
  decide ((65 ≤ c ∧ c ≤ 90) ∨ (97 ≤ c ∧ c ≤ 122) ∨ (48 ≤ c ∧ c ≤ 57) ∨ c = 95)

/-- ASCII case folding: the effect of Python's `str.lower` (and of
`re.IGNORECASE` literal comparison) on one codepoint. -/
def foldChar (c : Nat) : Nat := if 65 ≤ c ∧ c ≤ 90 then c + 32 else c

/-- `s.lower()` on a whole string. -/
def lowerStr (s : Str) : Str := s.map foldChar

/-- Case-insensitive equality of two strings, as `re.IGNORECASE` compares a
literal pattern with the matched text. -/
def foldEq (a b : Str) : Bool := lowerStr a == lowerStr b

/-- Whether the character of `t` at position `i` (if any) is a word
character; positions outside `t` count as non-word, as at string edges. -/
def isWordAt (t : Str) (i : Nat) : Bool :=
  match t[i]? with
  | some c => isWordChar c
  | none => false

/-- Python's `\b` assertion at position `i` of `t`: exactly one of the two
neighbouring characters is a word character. -/
def boundaryAt (t : Str) (i : Nat) : Bool :=
  (if i = 0 then false else isWordAt t (i - 1)) != isWordAt t i

/-- The pattern `\b<literal k>\b` (the pattern `re.search` is given in
`scan_text_for_keywords`, after `re.escape`) matches `t` at position `i`. -/
def matchWordAt (k t : Str) (i : Nat) : Bool :=
  boundaryAt t i && foldEq ((t.drop i).take k.length) k && boundaryAt t (i + k.length)

/-- `re.search(r'\b' + re.escape(k) + r'\b', t, re.IGNORECASE)` finds a
match somewhere in `t`. -/
def reSearchWord (k t : Str) : Bool :=
  (List.range (t.length + 1)).any fun i => matchWordAt k t i

/-- `scan_text_for_keywords(text, keywords)` from `web_protect.py`: the
keywords whose whole-word case-insensitive pattern matches `text`.  The
source accumulates matches in a set and returns `list(found_keywords)`;
the model returns the deduplicated filtered list (same membership). -/
def scan_text_for_keywords (text : Str) (keywords : List Str) : List Str :=
  (keywords.filter fun k => reSearchWord k text).dedup

/-- Python's `needle in hay` substring test. -/
def containsSub (needle hay : Str) : Bool :=
  (List.range (hay.length + 1)).any fun i => (hay.drop i).take needle.length == needle

/-- Specification-side notion used by the scanner claims: keyword `k`
occurs in `T` as a standalone word, case-insensitively.  `k` is a non-empty
word (only word characters) and some case-folded copy of it sits in `T`
with no word character immediately before or after it. -/
def occursStandalone (k T : Str) : Prop :=
  k ≠ [] ∧ (∀ c ∈ k, isWordChar c = true) ∧
    ∃ pre mid suf, T = pre ++ mid ++ suf ∧ lowerStr mid = lowerStr k ∧
      (pre = [] ∨ ∃ c, pre.getLast? = some c ∧ isWordChar c = false) ∧
      (suf = [] ∨ ∃ c, suf.head? = some c ∧ isWordChar c = false)

/-- Join a list of strings with a separator, as Python's string join. -/
def joinSep (sep : Str) : List Str → Str
  | [] => []
  | [x] => x
  | x :: y :: rest => x ++ sep ++ joinSep sep (y :: rest)

/-- The codepoint of the single-quote character used by Python string
representations. -/
def quoteChar : Str := [39]

/-- Python's `repr` of a list of strings, as interpolated by an f-string
(e.g. `"['a', 'b']"`). -/
def pyReprList (xs : List Str) : Str :=
  str "[" ++ joinSep (str ", ") (xs.map fun x => quoteChar ++ x ++ quoteChar) ++ str "]"

/-- The data the external collaborators (HTTP fetcher, `BeautifulSoup`
extraction, per-image OCR) hand to `survey_website` on a successful fetch:
the response's `content-type` header, the joined text of the scanned tags,
the outbound links as (href, anchor-text) pairs, and the images the OCR
loop processed as (image URL, extracted text) pairs. -/
structure FetchedPage where
  contentType : Str
  pageText : Str
  links : List (Str × Str)
  images : List (Str × Str)

/-- Outcome of fetching a URL: a page, a `requests.exceptions.RequestException`
(including `raise_for_status`), or any other unexpected exception. -/
inductive Fetch where
  | success (page : FetchedPage)
  | requestError (msg : Str)
  | otherError (msg : Str)

/-- The result dictionary `survey_website` returns. -/
structure SurveyResult where
  url : Str
  status : Str
  reason : Str
  matched_keywords : List Str
  content_type : Str

/-- The local `found_text_keywords` of `survey_website`: keywords found in
the page text. -/
def foundTextKeywordsOf (page : FetchedPage) (keywords : List Str) : List Str :=
  scan_text_for_keywords page.pageText keywords

/-- Keywords found in link hrefs and anchor texts by the link-scanning
loop of `survey_website`. -/
def linkFoundOf (page : FetchedPage) (keywords : List Str) : List Str :=
  (page.links.map fun l =>
    scan_text_for_keywords l.1 keywords ++ scan_text_for_keywords l.2 keywords).flatten

/-- Keywords found in OCR-extracted image texts by the image loop of
`survey_website`. -/
def imageFoundOf (page : FetchedPage) (keywords : List Str) : List Str :=
  (page.images.map fun im => scan_text_for_keywords im.2 keywords).flatten

/-- The local `all_found_keywords` of `survey_website`: the union (as a
deduplicated list) of the text, link and image channel matches. -/
def allFoundKeywordsOf (page : FetchedPage) (keywords : List Str) : List Str :=
  (foundTextKeywordsOf page keywords ++ linkFoundOf page keywords ++
    imageFoundOf page keywords).dedup

/-- The local `found_link_keywords_details` of `survey_website`. -/
def linkDetailsOf (page : FetchedPage) (keywords : List Str) : List Str :=
  (page.links.map fun l =>
    (if (scan_text_for_keywords l.1 keywords).isEmpty then [] else
      [str "link URL " ++ quoteChar ++ l.1 ++ quoteChar ++ str " (found: " ++
        joinSep (str ", ") (scan_text_for_keywords l.1 keywords) ++ str ")"]) ++
    (if (scan_text_for_keywords l.2 keywords).isEmpty then [] else
      [str "link text " ++ quoteChar ++ l.2 ++ quoteChar ++ str " (found: " ++
        joinSep (str ", ") (scan_text_for_keywords l.2 keywords) ++ str ")"])).flatten

/-- The local `found_image_keywords_details` of `survey_website`. -/
def imageDetailsOf (page : FetchedPage) (keywords : List Str) : List Str :=
  (page.images.map fun im =>
    if (scan_text_for_keywords im.2 keywords).isEmpty then [] else
      [str "image " ++ quoteChar ++ im.1 ++ quoteChar ++ str " (found: " ++
        joinSep (str ", ") (scan_text_for_keywords im.2 keywords) ++ str ")"]).flatten

/-- The local `reasons` of `survey_website`: which channels contributed. -/
def reasonsOf (page : FetchedPage) (keywords : List Str) : List Str :=
  (if (foundTextKeywordsOf page keywords).isEmpty then [] else
    [str "text content (found: " ++
      joinSep (str ", ") (foundTextKeywordsOf page keywords) ++ str ")"]) ++
  (if (linkDetailsOf page keywords).isEmpty then [] else
    [str "links (" ++ joinSep (str "; ") (linkDetailsOf page keywords) ++ str ")"]) ++
  (if (imageDetailsOf page keywords).isEmpty then [] else
    [str "images via OCR (" ++
      joinSep (str "; ") (imageDetailsOf page keywords) ++ str ")"])

/-- `survey_website(url, keywords)` from `web_protect.py`, as a function of
the fetch outcome.  Returns the result record together with the list of
messages the function itself appends to the survey results log (the error
branches log; the success branches leave logging to `survey_websites`). -/
def survey_website (url : Str) (keywords : List Str) (f : Fetch) :
    SurveyResult × List Str :=
  match f with
  | .requestError msg =>
      (⟨url, str "error", msg, [], str "error"⟩,
       [str "ERROR surveying " ++ url ++ str ": " ++ msg])
  | .otherError msg =>
      (⟨url, str "error", str "Unexpected: " ++ msg, [], str "error"⟩,
       [str "UNEXPECTED ERROR surveying " ++ url ++ str ": " ++ msg])
  | .success page =>
      if containsSub (str "text/html") (lowerStr page.contentType) then
        if (allFoundKeywordsOf page keywords).isEmpty then
          (⟨url, str "ok",
            str "No keywords found in text, links, or images (if OCR enabled).",
            [], str "mixed (text/links/images)"⟩, [])
        else
          (⟨url, str "red_flag",
            str "Keywords found in " ++ joinSep (str ", ") (reasonsOf page keywords),
            allFoundKeywordsOf page keywords, str "mixed (text/links/images)"⟩, [])
      else
        (⟨url, str "skipped",
          str "Non-HTML content (Content-Type: " ++ lowerStr page.contentType ++ str ")",
          [], str "other"⟩, [])

/-- The scheme normalization the `survey_websites` loop applies before
surveying each URL. -/
def normalizeUrl (url : Str) : Str :=
  if (str "http://").isPrefixOf url || (str "https://").isPrefixOf url then url
  else str "http://" ++ url

/-- One iteration of the `survey_websites` loop for one URL: normalize the
scheme, survey, then append the per-status log line the loop writes
(red_flag and ok get a line; errors were already logged inside
`survey_website`; any other status gets none).  Returns the result and all
messages appended to the survey results log for this URL. -/
def process_url (url : Str) (keywords : List Str) (f : Fetch) :
    SurveyResult × List Str :=
  let u := normalizeUrl url
  let rl := survey_website u keywords f
  let extra :=
    if rl.1.status = str "red_flag" then
      [str "RED FLAG: URL=" ++ rl.1.url ++ str ", Keywords=" ++
        pyReprList rl.1.matched_keywords ++ str ", Type=" ++ rl.1.content_type]
    else if rl.1.status = str "ok" then
      [str "OK: URL=" ++ rl.1.url ++ str ". No keywords found in text."]
    else []
  (rl.1, rl.2 ++ extra)

/-- Python whitespace characters stripped by `str.strip()` (ASCII fragment). -/
def isPySpace (c : Nat) : Bool :=
  decide (c = 32 ∨ c = 9 ∨ c = 10 ∨ c = 13 ∨ c = 11 ∨ c = 12)

/-- Python's `line.strip()`. -/
def stripStr (s : Str) : Str :=
  ((s.dropWhile isPySpace).reverse.dropWhile isPySpace).reverse

/-- What one `add_to_blocklist` call reported. -/
inductive AddOutcome where
  | added
  | alreadyPresent
  | skippedEmpty
deriving DecidableEq

/-- Result of one `add_to_blocklist` call: the new file content (one entry
per line), the reported outcome, and how many times the call read the
backing store. -/
structure AddResult where
  blocklist : List Str
  outcome : AddOutcome
  reads : Nat

/-- The physical lines of a text chunk, split at newline characters
(codepoint 10): writing `chunk ++ "\n"` to a line-oriented file appends
exactly the lines `splitLines chunk`. -/
def splitLines : Str → List Str
  | [] => [[]]
  | c :: rest =>
      if c = 10 then [] :: splitLines rest
      else
        match splitLines rest with
        | [] => [[c]]
        | l :: ls => (c :: l) :: ls

/-- `add_to_blocklist(domain)` from `web_protect.py`, on a blocklist file
whose lines are `fs` (the file exists; the program creates it at startup,
and every write ends in a newline, so the content is a list of complete
lines).  An empty domain is skipped; otherwise the file is read once, each
line is stripped, and unless the raw domain equals one of the stripped
lines the program writes `f"{domain}\n"` — which appends the physical
lines `splitLines domain` (several lines when the domain embeds a
newline). -/
def add_to_blocklist (fs : List Str) (domain : Str) : AddResult :=
  if domain = [] then ⟨fs, .skippedEmpty, 0⟩
  else
    let current := fs.map stripStr
    if domain ∈ current then ⟨fs, .alreadyPresent, 1⟩
    else ⟨fs ++ splitLines domain, .added, 1⟩

/-- The deduplicated set of valid domains `process_survey_results` extracts
from the flagged sites (`get_domain_from_url` delegates to the external
`urllib.parse`, so domain extraction is a parameter; `None` and empty
results are dropped with a warning). -/
def uniqueDomains (getDomain : Str → Option Str) (flagged : List SurveyResult) :
    List Str :=
  ((flagged.filterMap fun site => getDomain site.url).filter fun d => d ≠ []).dedup

/-- `process_survey_results(flagged_sites)` from `web_protect.py`: add each
distinct valid domain to the blocklist.  Returns the final file content and
the total number of reads of the backing store performed. -/
def process_survey_results (getDomain : Str → Option Str)
    (flagged : List SurveyResult) (fs : List Str) : List Str × Nat :=
  if flagged.isEmpty then (fs, 0)
  else
    (uniqueDomains getDomain flagged).foldl
      (fun st d =>
        let r := add_to_blocklist st.1 d
        (r.blocklist, st.2 + r.reads))
      (fs, 0)

/-- Observable steps of one `simulate_ddos` run, in order. -/
inductive DdosEvent where
  | resetCounters
  | logStart
  | spawnWorker
  | setStopSignal
  | logEnd
deriving DecidableEq

/-- `simulate_ddos(target_url, num_threads, rps_per_thread, duration_seconds)`
from `web_protect.py`, as the sequence of its observable steps: it
unconditionally resets the counters, logs the run start, spawns one worker
thread per `range(num_threads)` element, then (after the timed monitoring
loop) sets the stop event and logs the run end.  No configuration check
appears anywhere in the function. -/
def simulate_ddos (numThreads : Int) (rpsPerThread : ℚ) (durationSeconds : Int) :
    List DdosEvent :=
  [.resetCounters, .logStart] ++
    List.replicate numThreads.toNat .spawnWorker ++
    [.setStopSignal, .logEnd]

/-- The sleep duration a `ddos_worker` iteration applies: for a positive
rate, `1/rate - elapsed` when that is positive, else no sleep; for
`rate <= 0` the `if rate > 0` guard skips throttling entirely.  Python
floats are modelled as rationals. -/
def ddos_worker_sleep (rate elapsed : ℚ) : ℚ :=
  if 0 < rate then
    let sleepDuration := 1 / rate - elapsed
    if 0 < sleepDuration then sleepDuration else 0
  else 0

/-- An account from `account_manager.py`. -/
structure Account where
  user_id : String
  pin : String
  balance : ℚ

/-- The `AccountManager`: its `accounts` dictionary, keyed by user id. -/
structure AccountManager where
  accounts : String → Option Account

/-- `AccountManager.get_balance`. -/
def get_balance (m : AccountManager) (u : String) : Option ℚ :=
  match m.accounts u with
  | some a => some a.balance
  | none => none

/-- Replace the account stored under `u`. -/
def updateAccount (m : AccountManager) (u : String) (a : Account) : AccountManager :=
  ⟨fun v => if v = u then some a else m.accounts v⟩

/-- `AccountManager.deposit`: succeeds iff the account exists and the
amount is positive. -/
def deposit (m : AccountManager) (u : String) (amount : ℚ) : Bool × AccountManager :=
  match m.accounts u with
  | some a =>
      if 0 < amount then
        (true, updateAccount m u { a with balance := a.balance + amount })
      else (false, m)
  | none => (false, m)

/-- `AccountManager.withdraw`: additionally requires sufficient balance. -/
def withdraw (m : AccountManager) (u : String) (amount : ℚ) : Bool × AccountManager :=
  match m.accounts u with
  | some a =>
      if 0 < amount then
        if amount ≤ a.balance then
          (true, updateAccount m u { a with balance := a.balance - amount })
        else (false, m)
      else (false, m)
  | none => (false, m)

/-- Result of `send_money` from `transactions.py`: the returned boolean,
whether the refund-on-deposit-failure branch executed, and the final
account state. -/
structure SendResult where
  ok : Bool
  refunded : Bool
  mgr : AccountManager

/-- `send_money(sender_id, receiver_id, amount, account_manager)` from
`transactions.py`, with its guard clauses and the refund branch. -/
def send_money (sender_id receiver_id : String) (amount : ℚ)
    (m : AccountManager) : SendResult :=
  if amount ≤ 0 then ⟨false, false, m⟩
  else if sender_id = receiver_id then ⟨false, false, m⟩
  else if get_balance m receiver_id = none then ⟨false, false, m⟩
  else
    let w := withdraw m sender_id amount
    if w.1 then
      let d := deposit w.2 receiver_id amount
      if d.1 then ⟨true, false, d.2⟩
      else ⟨false, true, (deposit d.2 sender_id amount).2⟩
    else ⟨false, false, w.2⟩

/-- The four terminal statuses of the survey state machine. -/
def fourStatusStrings : List Str :=
  [str "red_flag", str "ok", str "skipped", str "error"]

/-- The error description a failed fetch outcome carries, as
`survey_website` renders it into the `reason` field (`str(e)` for a
request exception, `"Unexpected: " + str(e)` otherwise). -/
def errorReasonOf : Fetch → Option Str
  | .success _ => none
  | .requestError msg => some msg
  | .otherError msg => some (str "Unexpected: " ++ msg)

/-- A concrete two-account state used to exercise the transfer theorems. -/
def mgrExample : AccountManager :=
  ⟨fun u =>
    if u = "alice" then some ⟨"alice", "1234", 10⟩
    else if u = "bob" then some ⟨"bob", "9999", 2⟩
    else none⟩

/-! ## Scanner lemmas and the keyword-scanner claims -/

theorem isWordChar_foldChar (c : Nat) : isWordChar (foldChar c) = isWordChar c := by
  unfold foldChar isWordChar
  split
  · rename_i h
    rw [decide_eq_decide]
    omega
  · rfl

theorem isWordChar_of_foldChar_eq {a b : Nat} (h : foldChar a = foldChar b) :
    isWordChar a = isWordChar b := by
  rw [← isWordChar_foldChar a, ← isWordChar_foldChar b, h]

theorem length_eq_of_lowerStr_eq {a b : Str} (h : lowerStr a = lowerStr b) :
    a.length = b.length := by
  have h2 := congrArg List.length h
  simpa [lowerStr] using h2

theorem fold_getElem?_of_lowerStr_eq {a b : Str} (h : lowerStr a = lowerStr b)
    (j : Nat) : a[j]?.map foldChar = b[j]?.map foldChar := by
  have h2 := congrArg (fun l => l[j]?) h
  simpa [lowerStr, List.getElem?_map] using h2

theorem wordChar_transfer {mid k : Str} (h : lowerStr mid = lowerStr k)
    (hk : ∀ c ∈ k, isWordChar c = true) {j c : Nat} (hc : mid[j]? = some c) :
    isWordChar c = true := by
  have h2 := fold_getElem?_of_lowerStr_eq h j
  rw [hc] at h2
  cases hkj : k[j]? with
  | none => rw [hkj] at h2; simp at h2
  | some c2 =>
    rw [hkj] at h2
    simp only [Option.map_some'] at h2
    have h3 : foldChar c = foldChar c2 := by injection h2
    rw [isWordChar_of_foldChar_eq h3]
    exact hk c2 (List.getElem?_mem hkj)

/-- Forward: a standalone occurrence yields a regex match at `pre.length`. -/
theorem matchWordAt_of_standalone {k pre mid suf : Str}
    (hk : k ≠ []) (hw : ∀ c ∈ k, isWordChar c = true)
    (hfold : lowerStr mid = lowerStr k)
    (hpre : pre = [] ∨ ∃ c, pre.getLast? = some c ∧ isWordChar c = false)
    (hsuf : suf = [] ∨ ∃ c, suf.head? = some c ∧ isWordChar c = false) :
    matchWordAt k (pre ++ mid ++ suf) pre.length = true := by
  have hlen : mid.length = k.length := length_eq_of_lowerStr_eq hfold
  have hkpos : 0 < k.length := List.length_pos.mpr hk
  have hmidpos : 0 < mid.length := hlen ▸ hkpos
  set t := pre ++ mid ++ suf with ht
  have hassoc : t = pre ++ (mid ++ suf) := by simp [ht, List.append_assoc]
  -- the extracted segment is exactly mid
  have hdrop : t.drop pre.length = mid ++ suf := by
    rw [hassoc]; exact List.drop_left pre (mid ++ suf)
  have hseg : (t.drop pre.length).take k.length = mid := by
    rw [hdrop, ← hlen]; exact List.take_left mid suf
  -- character at position pre.length is mid's head, a word char
  obtain ⟨m0, hm0⟩ : ∃ c, mid[0]? = some c := by
    cases hh : mid[0]? with
    | none => rw [List.getElem?_eq_none_iff] at hh; omega
    | some c => exact ⟨c, rfl⟩
  have hat : t[pre.length]? = some m0 := by
    rw [hassoc, List.getElem?_append_right (Nat.le_refl pre.length), Nat.sub_self,
      List.getElem?_append_left hmidpos, hm0]
  have hwordAt : isWordAt t pre.length = true := by
    rw [isWordAt, hat]
    exact wordChar_transfer hfold hw hm0
  -- the character before position pre.length (if any) is not a word char
  have hleft : (if pre.length = 0 then false else isWordAt t (pre.length - 1)) = false := by
    rcases hpre with h0 | ⟨c, hc, hcw⟩
    · simp [h0]
    · have hprepos : 0 < pre.length := by
        cases pre with
        | nil => simp at hc
        | cons a l => simp
      rw [if_neg (by omega)]
      have hgl : pre[pre.length - 1]? = some c := by
        rw [← List.getLast?_eq_getElem?]; exact hc
      have : t[pre.length - 1]? = some c := by
        rw [hassoc, List.getElem?_append_left (by omega), hgl]
      rw [isWordAt, this]
      exact hcw
  have hb1 : boundaryAt t pre.length = true := by
    rw [boundaryAt, hleft, hwordAt]; rfl
  -- last char of mid is a word char
  obtain ⟨mL, hmL⟩ : ∃ c, mid[mid.length - 1]? = some c := by
    cases hh : mid[mid.length - 1]? with
    | none => rw [List.getElem?_eq_none_iff] at hh; omega
    | some c => exact ⟨c, rfl⟩
  have hatL : t[pre.length + k.length - 1]? = some mL := by
    rw [hassoc, List.getElem?_append_right (by omega),
      List.getElem?_append_left (by omega)]
    rw [show pre.length + k.length - 1 - pre.length = mid.length - 1 by omega]
    exact hmL
  have hwordL : isWordAt t (pre.length + k.length - 1) = true := by
    rw [isWordAt, hatL]
    exact wordChar_transfer hfold hw hmL
  -- char after the segment is absent or not a word char
  have hright : isWordAt t (pre.length + k.length) = false := by
    have hidx : t[pre.length + k.length]? = suf[0]? := by
      rw [hassoc, List.getElem?_append_right (by omega),
        List.getElem?_append_right (by omega)]
      congr 1
      omega
    rcases hsuf with h0 | ⟨c, hc, hcw⟩
    · rw [isWordAt, hidx, h0]
      rfl
    · rw [isWordAt, hidx, ← List.head?_eq_getElem?, hc]
      exact hcw
  have hb2 : boundaryAt t (pre.length + k.length) = true := by
    rw [boundaryAt, if_neg (by omega), hright,
      show pre.length + k.length - 1 = pre.length + k.length - 1 from rfl, hwordL]
    rfl
  rw [matchWordAt, hb1, hseg, hb2]
  simp [foldEq, hfold]

/-- Backward: a whole-word regex match of a word-only keyword gives a
standalone occurrence. -/
theorem standalone_of_matchWordAt {k t : Str} {i : Nat}
    (hk : k ≠ []) (hw : ∀ c ∈ k, isWordChar c = true)
    (hm : matchWordAt k t i = true) : occursStandalone k t := by
  rw [matchWordAt, Bool.and_eq_true, Bool.and_eq_true] at hm
  obtain ⟨⟨hb1, hf⟩, hb2⟩ := hm
  have hfold : lowerStr ((t.drop i).take k.length) = lowerStr k := by
    have := (beq_iff_eq (a := lowerStr ((t.drop i).take k.length)) (b := lowerStr k)).mp hf
    exact this
  set mid := (t.drop i).take k.length with hmid
  have hmidlen : mid.length = k.length := length_eq_of_lowerStr_eq hfold
  have hkpos : 0 < k.length := List.length_pos.mpr hk
  have hile : i + k.length ≤ t.length := by
    have h1 := List.length_take k.length (t.drop i)
    rw [List.length_drop] at h1
    rw [← hmid] at h1
    omega
  have hmid_get : ∀ j, j < k.length → mid[j]? = t[i + j]? := by
    intro j hj
    rw [hmid]
    simp only [List.getElem?_take, hj, if_pos, List.getElem?_drop]
  have hsplit : mid ++ t.drop (i + k.length) = t.drop i := by
    rw [hmid, ← List.drop_drop]
    exact List.take_append_drop _ _
  refine ⟨hk, hw, t.take i, mid, t.drop (i + k.length), ?_, hfold, ?_, ?_⟩
  · calc t = t.take i ++ t.drop i := (List.take_append_drop i t).symm
      _ = t.take i ++ (mid ++ t.drop (i + k.length)) := by rw [hsplit]
      _ = t.take i ++ mid ++ t.drop (i + k.length) := by rw [List.append_assoc]
  · -- no word char just before the occurrence
    obtain ⟨m0, hm0⟩ : ∃ c, mid[0]? = some c := by
      cases hh : mid[0]? with
      | none => rw [List.getElem?_eq_none_iff] at hh; omega
      | some c => exact ⟨c, rfl⟩
    have hti : t[i]? = some m0 := by
      rw [← Nat.add_zero i, ← hmid_get 0 hkpos]
      exact hm0
    have hwi : isWordAt t i = true := by
      rw [isWordAt, hti]
      exact wordChar_transfer hfold hw hm0
    have hleft : (if i = 0 then false else isWordAt t (i - 1)) = false := by
      rw [boundaryAt, hwi] at hb1
      cases hif : (if i = 0 then false else isWordAt t (i - 1)) with
      | false => rfl
      | true => rw [hif] at hb1; simp at hb1
    by_cases hi0 : i = 0
    · left
      simp [hi0]
    · right
      have hlt : isWordAt t (i - 1) = false := by rw [if_neg hi0] at hleft; exact hleft
      have hi1lt : i - 1 < t.length := by omega
      obtain ⟨c, hc⟩ : ∃ c, t[i - 1]? = some c := by
        cases hh : t[i - 1]? with
        | none => rw [List.getElem?_eq_none_iff] at hh; omega
        | some c => exact ⟨c, rfl⟩
      refine ⟨c, ?_, ?_⟩
      · rw [List.getLast?_eq_getElem?]
        have hlentake : (t.take i).length = i := by
          rw [List.length_take]; omega
        rw [hlentake]
        simp only [List.getElem?_take, show i - 1 < i by omega, if_pos]
        exact hc
      · rw [isWordAt, hc] at hlt
        exact hlt
  · -- no word char just after the occurrence
    obtain ⟨mL, hmL⟩ : ∃ c, mid[k.length - 1]? = some c := by
      cases hh : mid[k.length - 1]? with
      | none => rw [List.getElem?_eq_none_iff] at hh; omega
      | some c => exact ⟨c, rfl⟩
    have htL : t[i + k.length - 1]? = some mL := by
      rw [show i + k.length - 1 = i + (k.length - 1) by omega, ← hmid_get _ (by omega)]
      exact hmL
    have hwL : isWordAt t (i + k.length - 1) = true := by
      rw [isWordAt, htL]
      exact wordChar_transfer hfold hw hmL
    have hright : isWordAt t (i + k.length) = false := by
      rw [boundaryAt, if_neg (by omega), hwL] at hb2
      cases hif : isWordAt t (i + k.length) with
      | false => rfl
      | true => rw [hif] at hb2; simp at hb2
    cases hh : t[i + k.length]? with
    | none =>
      left
      rw [List.getElem?_eq_none_iff] at hh
      exact List.drop_eq_nil_of_le hh
    | some c =>
      right
      refine ⟨c, ?_, ?_⟩
      · rw [List.head?_eq_getElem?, List.getElem?_drop, Nat.add_zero]
        exact hh
      · rw [isWordAt, hh] at hright
        exact hright

theorem scan_mem_iff (T : Str) (K : List Str) (k : Str) :
    k ∈ scan_text_for_keywords T K ↔ k ∈ K ∧ reSearchWord k T = true := by
  rw [scan_text_for_keywords, List.mem_dedup, List.mem_filter]

/-- C6: for every keyword set `K` and text `T`, `scan_text_for_keywords T K`
returns a subset of `K`; every keyword of `K` that occurs in `T` as a
standalone word (case-insensitively) is included; and a word keyword with no
standalone occurrence — in particular one occurring only as a substring of a
longer word, such as "sex" inside "Essex" — is excluded, because membership
in the result forces a standalone occurrence (third conjunct,
contrapositive). -/
theorem scan_whole_word_semantics (T : Str) (K : List Str) (k : Str) :
    (k ∈ scan_text_for_keywords T K → k ∈ K) ∧
    (k ∈ K → occursStandalone k T → k ∈ scan_text_for_keywords T K) ∧
    (k ∈ K → k ≠ [] → (∀ c ∈ k, isWordChar c = true) →
      k ∈ scan_text_for_keywords T K → occursStandalone k T) := by
  refine ⟨?_, ?_, ?_⟩
  · intro h
    exact ((scan_mem_iff T K k).mp h).1
  · intro hK hocc
    obtain ⟨hk, hw, pre, mid, suf, hT, hfold, hpre, hsuf⟩ := hocc
    rw [scan_mem_iff]
    refine ⟨hK, ?_⟩
    rw [reSearchWord, List.any_eq_true]
    refine ⟨pre.length, List.mem_range.mpr ?_, ?_⟩
    · rw [hT]
      simp only [List.length_append]
      omega
    · rw [hT]
      exact matchWordAt_of_standalone hk hw hfold hpre hsuf
  · intro _ hk hw hmem
    have hs := ((scan_mem_iff T K k).mp hmem).2
    rw [reSearchWord, List.any_eq_true] at hs
    obtain ⟨i, _, hm⟩ := hs
    exact standalone_of_matchWordAt hk hw hm

/-- C10: when the keyword list contains the empty string, the pattern
`\b\b` matches any text holding at least one word character (the boundary at
its first word character), so the empty keyword is reported even though it
never occurs as a standalone word; on a text without word characters no
boundary exists and the empty keyword is not matched. -/
theorem scan_empty_keyword_edge (T : Str) (K : List Str) (hK : [] ∈ K) :
    ((∃ c ∈ T, isWordChar c = true) → [] ∈ scan_text_for_keywords T K) ∧
    ((∀ c ∈ T, isWordChar c = false) → [] ∉ scan_text_for_keywords T K) := by
  constructor
  · rintro ⟨c, hc, hcw⟩
    obtain ⟨j, hj, hjc⟩ := List.getElem_of_mem hc
    have hex : ∃ n, isWordAt T n = true := by
      refine ⟨j, ?_⟩
      rw [isWordAt, List.getElem?_eq_getElem hj, hjc]
      exact hcw
    classical
    let i0 := Nat.find hex
    have hi0 : isWordAt T i0 = true := Nat.find_spec hex
    have hi0lt : i0 < T.length := by
      by_contra hge
      rw [isWordAt, List.getElem?_eq_none_iff.mpr (by omega)] at hi0
      simp at hi0
    have hb : boundaryAt T i0 = true := by
      rw [boundaryAt, hi0]
      by_cases h0 : i0 = 0
      · rw [if_pos h0]
        rfl
      · rw [if_neg h0]
        have hmin : ¬ isWordAt T (i0 - 1) = true := Nat.find_min hex (by omega)
        rw [Bool.not_eq_true] at hmin
        rw [hmin]
        rfl
    rw [scan_mem_iff]
    refine ⟨hK, ?_⟩
    rw [reSearchWord, List.any_eq_true]
    refine ⟨i0, List.mem_range.mpr (by omega), ?_⟩
    rw [matchWordAt]
    simp only [List.length_nil, List.take_zero, Nat.add_zero, hb]
    rfl
  · intro hall hmem
    have hs := ((scan_mem_iff T K []).mp hmem).2
    rw [reSearchWord, List.any_eq_true] at hs
    obtain ⟨i, _, hm⟩ := hs
    have hword : ∀ n, isWordAt T n = false := by
      intro n
      rw [isWordAt]
      cases hh : T[n]? with
      | none => rfl
      | some c => exact hall c (List.getElem?_mem hh)
    rw [matchWordAt, List.length_nil, List.take_zero, Nat.add_zero, boundaryAt,
      hword i] at hm
    rcases Nat.eq_zero_or_pos i with h0 | h0
    · rw [if_pos h0] at hm
      simp at hm
    · rw [if_neg (by omega), hword (i - 1)] at hm
      simp at hm


/-- Non-vacuity witness for C6: each conjunct of
`scan_whole_word_semantics` applied at concrete inputs. -/
theorem scan_whole_word_semantics_witness :
    str "gambling" ∈ scan_text_for_keywords (str "win at gambling now") [str "gambling"] ∧
    str "sex" ∈ [str "sex"] ∧
    occursStandalone (str "sex") (str "free sex here") :=
  ⟨(scan_whole_word_semantics (str "win at gambling now") [str "gambling"]
      (str "gambling")).2.1 (by decide)
      ⟨by decide, by decide, str "win at ", str "gambling", str " now", by decide,
        by decide, Or.inr ⟨32, by decide, by decide⟩, Or.inr ⟨32, by decide, by decide⟩⟩,
   (scan_whole_word_semantics (str "sex ed") [str "sex"] (str "sex")).1 (by decide),
   (scan_whole_word_semantics (str "free sex here") [str "sex"] (str "sex")).2.2
      (by decide) (by decide) (by decide) (by decide)⟩

/-- Non-vacuity witness for C10: the empty keyword is reported on `"ab"`
and not reported on `"!! ."`. -/
theorem scan_empty_keyword_edge_witness :
    ([] ∈ scan_text_for_keywords (str "ab") [[]]) ∧
    ([] ∉ scan_text_for_keywords (str "!! .") [[]]) :=
  ⟨(scan_empty_keyword_edge (str "ab") [[]] (by decide)).1 ⟨97, by decide, by decide⟩,
   (scan_empty_keyword_edge (str "!! .") [[]] (by decide)).2 (by decide)⟩

/-! ## Rate limiter and worker-pool claims -/

/-- C9: for every target rate `r > 0` and non-negative elapsed duration `e`,
the sleep duration a load worker applies equals `max 0 (1/r - e)`; for
`r = 0` the sleep duration is always `0`. -/
theorem ddos_worker_sleep_correct :
    (∀ r e : ℚ, 0 < r → 0 ≤ e → ddos_worker_sleep r e = max 0 (1 / r - e)) ∧
    (∀ e : ℚ, ddos_worker_sleep 0 e = 0) := by
  constructor
  · intro r e hr _
    rw [ddos_worker_sleep, if_pos hr]
    rcases le_or_lt (1 / r - e) 0 with h | h
    · rw [if_neg (not_lt.mpr h), max_eq_left h]
    · rw [if_pos h, max_eq_right h.le]
  · intro e
    rw [ddos_worker_sleep, if_neg (lt_irrefl 0)]

/-- Non-vacuity witness for C9 at rate 2 and elapsed 1/4, and at rate 0. -/
theorem ddos_worker_sleep_correct_witness :
    ddos_worker_sleep 2 (1 / 4) = max 0 (1 / 2 - 1 / 4) ∧
    ddos_worker_sleep 0 3 = 0 := by
  constructor
  · rw [ddos_worker_sleep_correct.1 2 (1 / 4) (by norm_num) (by norm_num)]
  · exact ddos_worker_sleep_correct.2 3

/-- C1 counterexample: `simulate_ddos` performs no configuration
validation.  With worker count `0` (an invalid configuration per the spec)
the run is still started — the counters are reset, the start of the run is
logged and the run is driven to its logged end — instead of being rejected
as a hard stop. -/
theorem simulate_ddos_invalid_config_counterexample :
    DdosEvent.resetCounters ∈ simulate_ddos 0 1 30 ∧
    DdosEvent.logStart ∈ simulate_ddos 0 1 30 ∧
    DdosEvent.logEnd ∈ simulate_ddos 0 1 30 := by
  decide

/-- C1 amended: `simulate_ddos` validates nothing and never rejects: for
every configuration the run is started (counters reset, start logged) and
driven to completion; a zero or negative worker count merely means zero
workers are spawned while the run still proceeds. -/
theorem simulate_ddos_no_validation :
    ∀ (nt : Int) (rps : ℚ) (dur : Int),
      DdosEvent.resetCounters ∈ simulate_ddos nt rps dur ∧
      DdosEvent.logStart ∈ simulate_ddos nt rps dur ∧
      DdosEvent.logEnd ∈ simulate_ddos nt rps dur ∧
      (nt ≤ 0 → (simulate_ddos nt rps dur).count DdosEvent.spawnWorker = 0) := by
  intro nt rps dur
  refine ⟨by simp [simulate_ddos], by simp [simulate_ddos], by simp [simulate_ddos], ?_⟩
  intro h
  simp [simulate_ddos, List.count_append, List.count_replicate, List.count_cons]
  omega

/-- Non-vacuity witness for C1 amended, at worker count `-3`. -/
theorem simulate_ddos_no_validation_witness :
    DdosEvent.logStart ∈ simulate_ddos (-3) 1 30 ∧
    (simulate_ddos (-3) 1 30).count DdosEvent.spawnWorker = 0 :=
  ⟨(simulate_ddos_no_validation (-3) 1 30).2.1,
   (simulate_ddos_no_validation (-3) 1 30).2.2.2 (by norm_num)⟩

/-! ## Banking transfer claim -/

theorem get_balance_isSome (m : AccountManager) (u : String) :
    (get_balance m u).isSome = (m.accounts u).isSome := by
  rw [get_balance]
  cases m.accounts u <;> rfl

theorem deposit_fst_true (m : AccountManager) (u : String) (amount : ℚ)
    (hacc : (m.accounts u).isSome = true) (hpos : 0 < amount) :
    (deposit m u amount).1 = true := by
  rw [deposit]
  cases h : m.accounts u with
  | none => rw [h] at hacc; simp at hacc
  | some a => simp [hpos]

theorem withdraw_preserves_isSome (m : AccountManager) (s : String)
    (amount : ℚ) (r : String) :
    (((withdraw m s amount).2).accounts r).isSome = ((m.accounts r).isSome) := by
  rw [withdraw]
  cases h : m.accounts s with
  | none => rfl
  | some a =>
    by_cases hpos : 0 < amount
    · by_cases hbal : amount ≤ a.balance
      · simp only [hpos, hbal, if_true, updateAccount]
        by_cases hr : r = s
        · subst hr
          simp [h]
        · simp [hr]
      · simp [hpos, hbal]
    · simp [hpos]

/-- C5: under `send_money`'s own guard clauses (positive amount, sender
distinct from receiver, receiver account exists) a successful withdraw from
the sender is always followed by a successful deposit to the receiver, so
the refund-on-deposit-failure branch of `send_money` is unreachable — its
`refunded` flag is `false` on every input whatsoever. -/
theorem send_money_refund_unreachable :
    ∀ (m : AccountManager) (s r : String) (amount : ℚ),
      (0 < amount → s ≠ r → (get_balance m r).isSome = true →
        (withdraw m s amount).1 = true →
        (deposit (withdraw m s amount).2 r amount).1 = true) ∧
      (send_money s r amount m).refunded = false := by
  intro m s r amount
  have hdep : 0 < amount → (get_balance m r).isSome = true →
      (deposit (withdraw m s amount).2 r amount).1 = true := by
    intro hpos hrec
    apply deposit_fst_true _ _ _ _ hpos
    rw [withdraw_preserves_isSome, ← get_balance_isSome]
    exact hrec
  refine ⟨fun hpos _ hrec _ => hdep hpos hrec, ?_⟩
  rw [send_money]
  by_cases h1 : amount ≤ 0
  · rw [if_pos h1]
  · rw [if_neg h1]
    by_cases h2 : s = r
    · rw [if_pos h2]
    · rw [if_neg h2]
      by_cases h3 : get_balance m r = none
      · rw [if_pos h3]
      · rw [if_neg h3]
        by_cases h4 : (withdraw m s amount).1 = true
        · have h5 : (deposit (withdraw m s amount).2 r amount).1 = true := by
            apply hdep (by linarith [not_le.mp h1])
            rw [get_balance_isSome, ← get_balance_isSome, Option.isSome_iff_ne_none]
            exact h3
          simp only [h4, if_true, h5]
        · simp only [Bool.not_eq_true] at h4
          simp only [h4]
          rfl

/-- Non-vacuity witness for C5 on a concrete two-account state: alice
sends 5 to bob, the deposit after the withdraw succeeds and no refund
happens. -/
theorem send_money_refund_unreachable_witness :
    (deposit (withdraw mgrExample "alice" 5).2 "bob" 5).1 = true ∧
    (send_money "alice" "bob" 5 mgrExample).refunded = false :=
  ⟨(send_money_refund_unreachable mgrExample "alice" "bob" 5).1
      (by norm_num) (by decide) (by decide) (by decide),
   (send_money_refund_unreachable mgrExample "alice" "bob" 5).2⟩

/-! ## Blocklist claims -/

theorem add_mem_countP (gs : List Str) (d : Str) :
    d ∈ gs.map stripStr ↔ 0 < gs.countP fun l => stripStr l == d := by
  rw [List.countP_pos_iff, List.mem_map]
  constructor
  · rintro ⟨l, hl, he⟩
    exact ⟨l, hl, by rw [he]; exact beq_self_eq_true d⟩
  · rintro ⟨l, hl, he⟩
    exact ⟨l, hl, by rwa [beq_iff_eq] at he⟩

/-- C8 amended: for every non-empty, single-line domain `d` (no embedded
newline, so it persists as one file line) free of surrounding whitespace
(`strip(d) = d`), starting from any persisted blocklist state in which at
most one line strips to `d`, calling `add_to_blocklist` twice with `d`
results in exactly one persisted line stripping to `d`, and the second
call is a no-op reported as already-present. -/
theorem add_to_blocklist_idempotent :
    ∀ (fs : List Str) (d : Str), d ≠ [] → stripStr d = d →
      splitLines d = [d] →
      (fs.countP fun l => stripStr l == d) ≤ 1 →
      ((add_to_blocklist (add_to_blocklist fs d).blocklist d).blocklist.countP
          fun l => stripStr l == d) = 1 ∧
      (add_to_blocklist (add_to_blocklist fs d).blocklist d).outcome =
        AddOutcome.alreadyPresent := by
  intro fs d hne hstrip hline hcount
  by_cases hmem : d ∈ fs.map stripStr
  · have h1 : add_to_blocklist fs d = ⟨fs, .alreadyPresent, 1⟩ := by
      rw [add_to_blocklist, if_neg hne, if_pos hmem]
    rw [h1]
    constructor
    · rw [show (AddResult.mk fs .alreadyPresent 1).blocklist = fs from rfl]
      rw [add_to_blocklist, if_neg hne, if_pos hmem]
      show (fs.countP fun l => stripStr l == d) = 1
      have := (add_mem_countP fs d).mp hmem
      omega
    · rw [show (AddResult.mk fs .alreadyPresent 1).blocklist = fs from rfl]
      rw [add_to_blocklist, if_neg hne, if_pos hmem]
  · have h1 : add_to_blocklist fs d = ⟨fs ++ [d], .added, 1⟩ := by
      rw [add_to_blocklist, if_neg hne, if_neg hmem, hline]
    rw [h1]
    have hcount0 : (fs.countP fun l => stripStr l == d) = 0 := by
      have := (add_mem_countP fs d).not.mp hmem
      omega
    have hmem2 : d ∈ (fs ++ [d]).map stripStr := by
      rw [List.map_append, List.mem_append]
      right
      simp [hstrip]
    have h2 : add_to_blocklist (fs ++ [d]) d = ⟨fs ++ [d], .alreadyPresent, 1⟩ := by
      rw [add_to_blocklist, if_neg hne, if_pos hmem2]
    rw [show (AddResult.mk (fs ++ [d]) .added 1).blocklist = fs ++ [d] from rfl, h2]
    constructor
    · rw [show (AddResult.mk (fs ++ [d]) .alreadyPresent 1).blocklist = fs ++ [d] from rfl]
      rw [List.countP_append, hcount0]
      simp [hstrip]
    · rfl

/-- C8 counterexample: idempotence as claimed fails on two kinds of
domains.  A domain with leading whitespace (`" evil.com"`): the membership
test compares the raw domain against stripped lines, so two adds starting
from an empty blocklist append it twice and the second call reports a
fresh addition, leaving two persisted lines for the domain instead of one.
A domain with an embedded newline (`"a.com\nb.com"`): the write
`f"{domain}\n"` splits it across two physical lines, so no line ever
strips to it — two adds leave zero lines for the domain (four lines in the
file) and the second call again reports a fresh addition, not
already-present. -/
theorem add_to_blocklist_idempotence_counterexample :
    ((add_to_blocklist (add_to_blocklist [] (str " evil.com")).blocklist
        (str " evil.com")).blocklist.countP fun l => l == str " evil.com") = 2 ∧
    (add_to_blocklist (add_to_blocklist [] (str " evil.com")).blocklist
        (str " evil.com")).outcome = AddOutcome.added ∧
    ((add_to_blocklist (add_to_blocklist [] (str "a.com\nb.com")).blocklist
        (str "a.com\nb.com")).blocklist.countP
      fun l => stripStr l == str "a.com\nb.com") = 0 ∧
    (add_to_blocklist (add_to_blocklist [] (str "a.com\nb.com")).blocklist
        (str "a.com\nb.com")).blocklist.length = 4 ∧
    (add_to_blocklist (add_to_blocklist [] (str "a.com\nb.com")).blocklist
        (str "a.com\nb.com")).outcome = AddOutcome.added := by
  decide

/-- Non-vacuity witness for C8 amended: adding `"bad.com"` twice to an
empty blocklist leaves exactly one line and reports already-present. -/
theorem add_to_blocklist_idempotent_witness :
    ((add_to_blocklist (add_to_blocklist [] (str "bad.com")).blocklist
        (str "bad.com")).blocklist.countP fun l => stripStr l == str "bad.com") = 1 ∧
    (add_to_blocklist (add_to_blocklist [] (str "bad.com")).blocklist
        (str "bad.com")).outcome = AddOutcome.alreadyPresent :=
  add_to_blocklist_idempotent [] (str "bad.com") (by decide) (by decide)
    (by decide) (by decide)

theorem blocklist_fold_reads (ds : List Str) :
    ∀ (fs : List Str) (acc : Nat), (∀ d ∈ ds, d ≠ []) →
      (ds.foldl
        (fun st d =>
          let r := add_to_blocklist st.1 d
          (r.blocklist, st.2 + r.reads)) (fs, acc)).2 = acc + ds.length := by
  induction ds with
  | nil => intro fs acc _; simp
  | cons d ds ih =>
    intro fs acc h
    have hd : d ≠ [] := h d (List.mem_cons_self d ds)
    have hreads : (add_to_blocklist fs d).reads = 1 := by
      rw [add_to_blocklist, if_neg hd]
      by_cases hmem : d ∈ fs.map stripStr
      · rw [if_pos hmem]
      · rw [if_neg hmem]
    rw [List.foldl_cons, ih _ _ (fun x hx => h x (List.mem_cons_of_mem d hx))]
    simp only [hreads, List.length_cons]
    omega

theorem uniqueDomains_nonempty (getDomain : Str → Option Str)
    (flagged : List SurveyResult) :
    ∀ d ∈ uniqueDomains getDomain flagged, d ≠ [] := by
  intro d hd
  rw [uniqueDomains, List.mem_dedup, List.mem_filter] at hd
  simpa using hd.2

/-- C4 counterexample: the blocklist population step does not read the
persisted blocklist once per batch.  For a batch of two red-flagged sites
on two distinct domains the backing store is read twice — once per
domain inserted — not once. -/
theorem process_survey_results_reads_counterexample :
    (process_survey_results (fun u => some u)
      [⟨str "a.com", str "red_flag", str "kw", [str "sex"], str "mixed"⟩,
       ⟨str "b.com", str "red_flag", str "kw", [str "sex"], str "mixed"⟩] []).2 = 2 := by
  decide

/-- C4 amended: for every domain-extraction function, batch of flagged
sites and starting blocklist, the blocklist population step reads the
backing store exactly once per distinct valid extracted domain (so N reads
for N distinct domains, not one read per batch). -/
theorem process_survey_results_reads_per_domain :
    ∀ (getDomain : Str → Option Str) (flagged : List SurveyResult) (fs : List Str),
      (process_survey_results getDomain flagged fs).2 =
        (uniqueDomains getDomain flagged).length := by
  intro getDomain flagged fs
  rw [process_survey_results]
  by_cases hempty : flagged.isEmpty
  · rw [if_pos hempty]
    have : flagged = [] := List.isEmpty_iff.mp hempty
    subst this
    rfl
  · rw [if_neg hempty]
    rw [blocklist_fold_reads _ _ _ (uniqueDomains_nonempty getDomain flagged)]
    omega

/-! ## Survey pipeline claims -/

theorem survey_website_skipped_eq (url : Str) (keywords : List Str)
    (page : FetchedPage)
    (h : containsSub (str "text/html") (lowerStr page.contentType) = false) :
    survey_website url keywords (.success page) =
      (⟨url, str "skipped",
        str "Non-HTML content (Content-Type: " ++ lowerStr page.contentType ++ str ")",
        [], str "other"⟩, []) := by
  simp [survey_website, h]

theorem survey_website_ok_eq (url : Str) (keywords : List Str)
    (page : FetchedPage)
    (h1 : containsSub (str "text/html") (lowerStr page.contentType) = true)
    (h2 : (allFoundKeywordsOf page keywords).isEmpty = true) :
    survey_website url keywords (.success page) =
      (⟨url, str "ok",
        str "No keywords found in text, links, or images (if OCR enabled).",
        [], str "mixed (text/links/images)"⟩, []) := by
  simp [survey_website, h1, h2]

theorem survey_website_red_eq (url : Str) (keywords : List Str)
    (page : FetchedPage)
    (h1 : containsSub (str "text/html") (lowerStr page.contentType) = true)
    (h2 : (allFoundKeywordsOf page keywords).isEmpty = false) :
    survey_website url keywords (.success page) =
      (⟨url, str "red_flag",
        str "Keywords found in " ++ joinSep (str ", ") (reasonsOf page keywords),
        allFoundKeywordsOf page keywords, str "mixed (text/links/images)"⟩, []) := by
  simp [survey_website, h1, h2]

/-- C2 counterexample: a URL whose fetch yields non-HTML content produces a
`skipped` result for which the survey pipeline appends nothing at all to
the persistent results log — the `skipped` status is omitted from the log,
contradicting "no status is omitted". -/
theorem survey_skipped_not_logged_counterexample :
    (process_url (str "example.com") [str "sex"]
      (Fetch.success ⟨str "application/json", [], [], []⟩)).2 = [] ∧
    (process_url (str "example.com") [str "sex"]
      (Fetch.success ⟨str "application/json", [], [], []⟩)).1.status = str "skipped" := by
  decide

/-- C2 amended: the survey pipeline appends a record to the persistent
results log for a processed URL exactly when the result's terminal status
is not `skipped` — red_flag and ok are logged by the batch loop, errors by
`survey_website` itself, while a skipped result is only printed and never
appended. -/
theorem process_url_logs_iff_not_skipped :
    ∀ (url : Str) (keywords : List Str) (f : Fetch),
      (process_url url keywords f).2 ≠ [] ↔
        (process_url url keywords f).1.status ≠ str "skipped" := by
  intro url keywords f
  cases f with
  | requestError msg =>
    simp only [process_url, survey_website]
    rw [if_neg (by decide : ¬(str "error" = str "red_flag")),
      if_neg (by decide : ¬(str "error" = str "ok"))]
    simp only [List.append_nil]
    constructor
    · intro _
      decide
    · intro _
      simp
  | otherError msg =>
    simp only [process_url, survey_website]
    rw [if_neg (by decide : ¬(str "error" = str "red_flag")),
      if_neg (by decide : ¬(str "error" = str "ok"))]
    simp only [List.append_nil]
    constructor
    · intro _
      decide
    · intro _
      simp
  | success page =>
    by_cases h1 : containsSub (str "text/html") (lowerStr page.contentType) = true
    · by_cases h2 : (allFoundKeywordsOf page keywords).isEmpty = true
      · simp only [process_url, survey_website_ok_eq _ keywords page h1 h2]
        rw [if_neg (by decide : ¬(str "ok" = str "red_flag"))]
        simp only [if_true]
        simp only [List.nil_append]
        constructor
        · intro _
          decide
        · intro _
          simp
      · rw [Bool.not_eq_true] at h2
        simp only [process_url, survey_website_red_eq _ keywords page h1 h2]
        simp only [if_true]
        simp only [List.nil_append]
        constructor
        · intro _
          decide
        · intro _
          simp
    · rw [Bool.not_eq_true] at h1
      simp only [process_url, survey_website_skipped_eq _ keywords page h1]
      rw [if_neg (by decide : ¬(str "skipped" = str "red_flag")),
        if_neg (by decide : ¬(str "skipped" = str "ok"))]
      simp only [List.append_nil]
      constructor
      · intro h
        exact absurd rfl h
      · intro h
        exact absurd rfl h

/-- C3 counterexample: the `content_type` field of a skipped result does
not reflect the content type observed in the response — it is the fixed
classification `"other"` whatever the observed type (here shown for both
`application/json` and `image/png`), and the observed type neither equals
nor occurs inside it.  (The observed type is recorded in `reason`.) -/
theorem survey_skipped_content_type_counterexample :
    (survey_website (str "http://a.com") [str "sex"]
      (Fetch.success ⟨str "application/json", [], [], []⟩)).1.content_type = str "other" ∧
    (survey_website (str "http://a.com") [str "sex"]
      (Fetch.success ⟨str "image/png", [], [], []⟩)).1.content_type = str "other" ∧
    str "other" ≠ str "application/json" ∧
    containsSub (str "application/json") (str "other") = false := by
  decide

/-- C3 amended: for every surveyed URL whose fetched response has a
non-HTML content type, `survey_website` returns status `skipped` with
`matched_keywords` empty; the observed content type appears in the
`reason` field, while the `content_type` field holds the fixed
classification `"other"`. -/
theorem survey_website_non_html :
    ∀ (url : Str) (keywords : List Str) (page : FetchedPage),
      containsSub (str "text/html") (lowerStr page.contentType) = false →
      (survey_website url keywords (.success page)).1.status = str "skipped" ∧
      (survey_website url keywords (.success page)).1.matched_keywords = [] ∧
      (survey_website url keywords (.success page)).1.content_type = str "other" ∧
      (survey_website url keywords (.success page)).1.reason =
        str "Non-HTML content (Content-Type: " ++ lowerStr page.contentType ++ str ")" := by
  intro url keywords page h
  rw [survey_website_skipped_eq url keywords page h]
  exact ⟨rfl, rfl, rfl, rfl⟩

/-- Non-vacuity witness for C3 amended at a JSON response. -/
theorem survey_website_non_html_witness :
    (survey_website (str "http://a.com") [str "sex"]
      (Fetch.success ⟨str "application/json", [], [], []⟩)).1.status = str "skipped" ∧
    (survey_website (str "http://a.com") [str "sex"]
      (Fetch.success ⟨str "application/json", [], [], []⟩)).1.matched_keywords = [] ∧
    (survey_website (str "http://a.com") [str "sex"]
      (Fetch.success ⟨str "application/json", [], [], []⟩)).1.content_type = str "other" ∧
    (survey_website (str "http://a.com") [str "sex"]
      (Fetch.success ⟨str "application/json", [], [], []⟩)).1.reason =
      str "Non-HTML content (Content-Type: " ++
        lowerStr (str "application/json") ++ str ")" :=
  survey_website_non_html (str "http://a.com") [str "sex"]
    ⟨str "application/json", [], [], []⟩ (by decide)

/-- C7: every result `survey_website` returns satisfies the data-model
invariant — status is `red_flag` iff `matched_keywords` is non-empty; an
`error` status comes with empty `matched_keywords` and a `reason` holding
the fetch failure's error description; and the status string equals exactly
one of the four statuses red_flag, ok, skipped, error. -/
theorem survey_result_invariant :
    ∀ (url : Str) (keywords : List Str) (f : Fetch),
      ((survey_website url keywords f).1.status = str "red_flag" ↔
        (survey_website url keywords f).1.matched_keywords ≠ []) ∧
      ((survey_website url keywords f).1.status = str "error" →
        (survey_website url keywords f).1.matched_keywords = [] ∧
        errorReasonOf f = some (survey_website url keywords f).1.reason) ∧
      fourStatusStrings.count (survey_website url keywords f).1.status = 1 := by
  intro url keywords f
  cases f with
  | requestError msg =>
    refine ⟨?_, fun _ => ⟨rfl, rfl⟩,
      show fourStatusStrings.count (str "error") = 1 by decide⟩
    constructor
    · intro h
      exact absurd h (show ¬(str "error" = str "red_flag") by decide)
    · intro h
      exact absurd rfl h
  | otherError msg =>
    refine ⟨?_, fun _ => ⟨rfl, rfl⟩,
      show fourStatusStrings.count (str "error") = 1 by decide⟩
    constructor
    · intro h
      exact absurd h (show ¬(str "error" = str "red_flag") by decide)
    · intro h
      exact absurd rfl h
  | success page =>
    by_cases h1 : containsSub (str "text/html") (lowerStr page.contentType) = true
    · by_cases h2 : (allFoundKeywordsOf page keywords).isEmpty = true
      · rw [survey_website_ok_eq url keywords page h1 h2]
        refine ⟨?_, fun h => absurd h (show ¬(str "ok" = str "error") by decide),
          show fourStatusStrings.count (str "ok") = 1 by decide⟩
        constructor
        · intro h
          exact absurd h (show ¬(str "ok" = str "red_flag") by decide)
        · intro h
          exact absurd rfl h
      · rw [Bool.not_eq_true] at h2
        rw [survey_website_red_eq url keywords page h1 h2]
        refine ⟨?_, fun h => absurd h (show ¬(str "red_flag" = str "error") by decide),
          show fourStatusStrings.count (str "red_flag") = 1 by decide⟩
        constructor
        · intro _
          intro heq
          have heq2 : allFoundKeywordsOf page keywords = [] := heq
          rw [heq2] at h2
          simp at h2
        · intro _
          rfl
    · rw [Bool.not_eq_true] at h1
      rw [survey_website_skipped_eq url keywords page h1]
      refine ⟨?_, fun h => absurd h (show ¬(str "skipped" = str "error") by decide),
        show fourStatusStrings.count (str "skipped") = 1 by decide⟩
      constructor
      · intro h
        exact absurd h (show ¬(str "skipped" = str "red_flag") by decide)
      · intro h
        exact absurd rfl h

/-- Non-vacuity witness for C7 at a failed fetch: the error-status
implication of `survey_result_invariant` instantiated concretely. -/
theorem survey_result_invariant_witness :
    (survey_website (str "http://x.com") [] (Fetch.requestError (str "boom"))).1.matched_keywords = [] ∧
    errorReasonOf (Fetch.requestError (str "boom")) =
      some (survey_website (str "http://x.com") [] (Fetch.requestError (str "boom"))).1.reason :=
  (survey_result_invariant (str "http://x.com") [] (Fetch.requestError (str "boom"))).2.1
    (by decide)
